import Mathlib

/-!
Verification of the lead-generation conversation engine
(`src/lead-gen-agent/src/components/LeadAgent.tsx`).

The engine walks a cursor through an ordered list of step definitions,
accumulating a lead record from parsed answers and logging messages.
The step list `baseSteps` and the scoring function `evaluateLead` are
imported from `src/lib/leadAgent`, a module that is not among the visible
sources; the engine below is therefore parameterized by the step list, and
a concrete step list plus the scoring function are modelled from the spec
where concrete instances are needed.

Message ids produced by `generateId` are random ids supplied by an external
unique-id collaborator (explicitly out of scope per the spec), so messages
are modelled without the `id` field.
-/

/-- Sender tag of a message (`type Sender = "agent" | "user"`). -/
inductive Sender where
  | agent
  | user
deriving DecidableEq, Repr

/-- Semantic tag carried in a message's `meta.type` field. -/
inductive MetaType where
  | question
  | info
  | summary
deriving DecidableEq, Repr

/-- One log entry (`type Message`), without the externally generated `id`. -/
structure Message where
  sender : Sender
  content : String
  suggestions : Option (List String)
  meta : Option MetaType
deriving DecidableEq, Repr

instance : Inhabited Message :=
  ⟨{ sender := Sender.user, content := "", suggestions := none, meta := none }⟩

/-- The lead record (`LeadProfile` from the rules module): a fixed set of
optional fields, all absent until their owning step succeeds. -/
structure LeadProfile where
  companyName : Option String := none
  industry : Option String := none
  companySize : Option String := none
  primaryGoal : Option String := none
  painPoints : Option String := none
  budgetRange : Option String := none
  budgetValue : Option Nat := none
  timeline : Option String := none
  timelineWeeks : Option Nat := none
  techStack : Option String := none
  contactName : Option String := none
  contactEmail : Option String := none
  notes : Option String := none
deriving DecidableEq, Repr

/-- Result of a step's parse contract: success carries field updates and an
optional follow-up text, failure carries a retry message. -/
inductive ParseResult where
  | success (updates : LeadProfile) (followUp : Option String)
  | failure (retryMessage : String)

/-- Whether a parse result is a success. -/
def ParseResult.isSuccess : ParseResult → Bool
  | .success _ _ => true
  | .failure _ => false

/-- One step definition (`LeadStep` from the rules module): identifier,
question, optional helper text, optional quick replies, and the parse
contract `(raw text, current record) → Result`. -/
structure LeadStep where
  id : String
  question : String
  helper : Option String := none
  suggestions : Option (List String) := none
  parse : String → LeadProfile → ParseResult

instance : Inhabited LeadStep :=
  ⟨{ id := "", question := "", parse := fun _ _ => ParseResult.failure "" }⟩

/-- Conversation status (`"collecting" | "complete"`). -/
inductive AgentStatus where
  | collecting
  | complete
deriving DecidableEq, Repr

/-- The engine's session state (`type AgentState`). -/
structure AgentState where
  stepIndex : Nat
  lead : LeadProfile
  messages : List Message
  status : AgentStatus
deriving Repr

/-- Reducer actions (`type AgentAction`). `Partial<LeadProfile>` is an
all-optional record, which is the same shape as `LeadProfile` itself. -/
inductive AgentAction where
  | init
  | pushMessage (payload : Message)
  | bulkMessages (payload : List Message)
  | advance (leadUpdates : LeadProfile) (followUp : Option String)
  | retry (message : String)
  | complete (followUp : Option String)
  | reset

/-- Field-level JS spread: a field present in the updates overrides the
base, otherwise the base value is kept. -/
def mergeField {α : Type} (base upd : Option α) : Option α :=
  match upd with
  | some v => some v
  | none => base

/-- `{ ...state.lead, ...action.leadUpdates }`: per-field override merge. -/
def mergeLead (base upd : LeadProfile) : LeadProfile :=
  { companyName := mergeField base.companyName upd.companyName
    industry := mergeField base.industry upd.industry
    companySize := mergeField base.companySize upd.companySize
    primaryGoal := mergeField base.primaryGoal upd.primaryGoal
    painPoints := mergeField base.painPoints upd.painPoints
    budgetRange := mergeField base.budgetRange upd.budgetRange
    budgetValue := mergeField base.budgetValue upd.budgetValue
    timeline := mergeField base.timeline upd.timeline
    timelineWeeks := mergeField base.timelineWeeks upd.timelineWeeks
    techStack := mergeField base.techStack upd.techStack
    contactName := mergeField base.contactName upd.contactName
    contactEmail := mergeField base.contactEmail upd.contactEmail
    notes := mergeField base.notes upd.notes }

/-- `agentMessage(content, suggestions?, meta?)`. -/
def agentMessage (content : String) (suggestions : Option (List String))
    (meta : Option MetaType) : Message :=
  { sender := Sender.agent, content := content, suggestions := suggestions, meta := meta }

/-- `userMessage(content)`. -/
def userMessage (content : String) : Message :=
  { sender := Sender.user, content := content, suggestions := none, meta := none }

/-- `questionForStep(step, index?)`: the question text is shown verbatim when
`index` is `undefined` or `0`; otherwise the helper text, when present, is
appended on a new line. -/
def questionForStep (step : LeadStep) (index : Option Nat) : Message :=
  let content :=
    match index with
    | none => step.question
    | some 0 => step.question
    | some (_ + 1) =>
        step.question ++ (match step.helper with
          | some h => "\n" ++ h
          | none => "")
  { sender := Sender.agent, content := content, suggestions := step.suggestions,
    meta := some MetaType.question }

/-- The greeting message (`initialAgentMessage`). -/
def initialAgentMessage : Message :=
  { sender := Sender.agent
    content := "Hey there — I’m your lead concierge. I’ll capture the essentials in a few quick questions."
    suggestions := some ["Sounds good!", "Let’s do it", "Can we skip ahead?"]
    meta := some MetaType.info }

/-- Optional follow-up text to messages: JS truthiness (`action.followUp ?`)
drops both an absent and an empty follow-up, and the appended agent message
carries no semantic tag. Shared by the ADVANCE and COMPLETE reducer cases,
both of which use this same conversion inline. -/
def followUpMessages (followUp : Option String) : List Message :=
  match followUp with
  | some f => if f = "" then [] else [agentMessage f none none]
  | none => []

/-- JS `String.prototype.trim` (`message.trim()` in `handleSubmit`): strip
leading and trailing whitespace. Implemented structurally over the character
list so that concrete instances reduce inside the kernel. -/
def jsTrim (s : String) : String :=
  String.mk (((s.data.dropWhile Char.isWhitespace).reverse.dropWhile Char.isWhitespace).reverse)

/-- The reducer of `LeadAgent.tsx`, parameterized by the step list that the
source reads from the (unseen) rules module as the global `baseSteps`. -/
def reducer (steps : List LeadStep) (state : AgentState) (action : AgentAction) : AgentState :=
  match action with
  | .init =>
      { stepIndex := 0, lead := {},
        messages := [initialAgentMessage, questionForStep steps.headI none],
        status := AgentStatus.collecting }
  | .pushMessage payload =>
      { state with messages := state.messages ++ [payload] }
  | .bulkMessages payload =>
      { state with messages := state.messages ++ payload }
  | .advance leadUpdates followUp =>
      let nextLead := mergeLead state.lead leadUpdates
      let nextStepIndex := state.stepIndex + 1
      match steps[nextStepIndex]? with
      | none =>
          { state with
              lead := nextLead,
              messages := state.messages ++ followUpMessages followUp,
              stepIndex := nextStepIndex }
      | some nextStep =>
          { state with
              lead := nextLead,
              messages := state.messages ++ followUpMessages followUp ++
                [questionForStep nextStep (some nextStepIndex)],
              stepIndex := nextStepIndex }
  | .retry message =>
      { state with messages := state.messages ++
          [agentMessage message none (some MetaType.info),
           questionForStep (steps.getD state.stepIndex default) (some state.stepIndex)] }
  | .complete followUp =>
      { state with
          status := AgentStatus.complete,
          messages := state.messages ++ followUpMessages followUp }
  | .reset =>
      { stepIndex := 0, lead := {},
        messages := [initialAgentMessage, questionForStep steps.headI none],
        status := AgentStatus.collecting }

/-- JS `Number.prototype.toLocaleString()` digit grouping: chunks of three
digits, working from the least significant end. -/
def chunk3 : List Char → List (List Char)
  | [] => []
  | [a] => [[a]]
  | [a, b] => [[a, b]]
  | a :: b :: c :: rest => [a, b, c] :: chunk3 rest

/-- `budgetValue.toLocaleString()` under the default (en-US style) grouping. -/
def natToLocaleString (n : Nat) : String :=
  String.mk (List.reverse (List.intercalate [','] (chunk3 (Nat.toDigits 10 n).reverse)))

/-- JS truthiness filter on an optional line: `undefined` and the empty
string are dropped (`lines.filter(Boolean)`). -/
def truthyLine : Option String → List String
  | some s => if s = "" then [] else [s]
  | none => []

/-- `lines.filter(Boolean)` over the optional summary lines. -/
def jsFilterTruthy : List (Option String) → List String
  | [] => []
  | o :: rest => truthyLine o ++ jsFilterTruthy rest

/-- The numeric-budget fallback entry of `renderSummary`
(`lead.budgetValue ? line : undefined`), reached whenever `budgetRange` is
falsy; a zero value is itself falsy and yields no line. -/
def budgetValueLine (ov : Option Nat) : Option String :=
  match ov with
  | some v =>
      if v = 0 then none
      else some ("• Budget comfort zone: ~$" ++ natToLocaleString v)
  | none => none

/-- The optional summary lines of `renderSummary`, in source order. Every
gate is a JS truthiness test (`lead.companyName ? … : undefined` and so
on), so a present-but-empty string behaves like an absent field, while the
`??` fallbacks for industry and email fire only when the field is absent. -/
def summaryEntries (lead : LeadProfile) : List (Option String) :=
  [ (match lead.companyName with
     | some c =>
         if c = "" then none
         else some ("• " ++ c ++ " in " ++ lead.industry.getD "unknown vertical")
     | none => none),
    (match lead.primaryGoal with
     | some g => if g = "" then none else some ("• Goal: " ++ g)
     | none => none),
    (match lead.painPoints with
     | some p => if p = "" then none else some ("• Challenge: " ++ p)
     | none => none),
    (match lead.budgetRange with
     | some b =>
         if b = "" then budgetValueLine lead.budgetValue
         else some ("• Budget comfort zone: " ++ b)
     | none => budgetValueLine lead.budgetValue),
    (match lead.timeline with
     | some t => if t = "" then none else some ("• Timeline: " ++ t)
     | none => none),
    (match lead.contactName with
     | some n =>
         if n = "" then none
         else some ("• Contact: " ++ n ++ " (" ++ lead.contactEmail.getD "email pending" ++ ")")
     | none => none) ]

/-- `lines.filter(Boolean)` applied to the optional summary lines. -/
def summaryLines (lead : LeadProfile) : List String :=
  jsFilterTruthy (summaryEntries lead)

/-- `renderSummary(lead)`. In the source the gate expressions are JS
truthiness tests (`lead.companyName ? … : undefined` and so on), so an empty
string or a zero budget behaves like an absent field; the `filter(Boolean)`
over the lines is modelled by `jsFilterTruthy`. -/
def renderSummary (lead : LeadProfile) : String :=
  "Quick recap:\n" ++ String.intercalate "\n" (summaryLines lead)

/-- The fixed acknowledgement text sent when submitting while complete. -/
def completeAckText : String :=
  "Appreciate the extra context. Noted for the handoff."

/-- The closing follow-up text dispatched with the COMPLETE action. -/
def completeFollowUpText : String :=
  "That’s everything I need. Here’s a quick snapshot of the opportunity."

/-- The closing prompt appended after the summary on completion. -/
def closingPromptText : String :=
  "Need anything else captured? Just type it in."

/-- `handleSubmit` of `LeadAgent.tsx` as a state transition: trims the input
and ignores blank input; pushes the user's message; while complete, appends
the fixed acknowledgement; otherwise runs the active step's parse contract,
dispatching RETRY on failure and ADVANCE (plus COMPLETE and the summary and
closing-prompt messages when the cursor moves past the last step) on
success. An out-of-range cursor while collecting appends only the user's
message. -/
def submit (steps : List LeadStep) (raw : String) (state : AgentState) : AgentState :=
  if (jsTrim raw) = "" then state
  else
    let s1 := reducer steps state (AgentAction.pushMessage (userMessage (jsTrim raw)))
    if state.status = AgentStatus.complete then
      reducer steps s1 (AgentAction.bulkMessages
        [agentMessage completeAckText none (some MetaType.info)])
    else
      match steps[state.stepIndex]? with
      | none => s1
      | some currentStep =>
        match currentStep.parse (jsTrim raw) state.lead with
        | .failure retryMessage => reducer steps s1 (AgentAction.retry retryMessage)
        | .success updates followUp =>
          let nextLead := mergeLead state.lead updates
          let s2 := reducer steps s1 (AgentAction.advance updates followUp)
          if steps.length ≤ state.stepIndex + 1 then
            let s3 := reducer steps s2 (AgentAction.complete (some completeFollowUpText))
            reducer steps s3 (AgentAction.bulkMessages
              [agentMessage (renderSummary nextLead) none (some MetaType.summary),
               agentMessage closingPromptText none none])
          else s2

/-- The `useReducer` initializer: cursor 0, empty record, greeting plus the
first step's question, status collecting. -/
def initState (steps : List LeadStep) : AgentState :=
  { stepIndex := 0, lead := {},
    messages := [initialAgentMessage, questionForStep steps.headI none],
    status := AgentStatus.collecting }

/-- Iterated submission of a list of raw inputs. -/
def runSubmits (steps : List LeadStep) : AgentState → List String → AgentState
  | s, [] => s
  | s, t :: ts => runSubmits steps (submit steps t s) ts

/-- Modelled from the spec: the step list `baseSteps` lives in
`src/lib/leadAgent`, which is not among the visible sources. This concrete
list follows §3/§4.1/§8 (a company-name step accepting any non-blank text, a
goal step with helper text, quick replies and a follow-up message, and an
email step whose parse contract rejects text without an @ sign). It is used
only to instantiate witnesses and counterexamples; the engine theorems are
proved for every step list. -/
def mSteps : List LeadStep :=
  [ { id := "company"
      question := "What is the name of your company?"
      parse := fun raw _ => ParseResult.success { companyName := some raw } none },
    { id := "goal"
      question := "What is the primary goal you want to hit?"
      helper := some "A sentence is plenty."
      suggestions := some ["Grow pipeline", "Automate follow-up"]
      parse := fun raw _ =>
        ParseResult.success { primaryGoal := some raw }
          (some "Great, that helps me tailor the playbook.") },
    { id := "email"
      question := "What is the best work email for the recap?"
      helper := some "I will send the summary there."
      parse := fun raw _ =>
        if raw.data.contains '@' then
          ParseResult.success { contactEmail := some raw } none
        else
          ParseResult.failure "That does not look like an email — could you double-check it?" } ]

/-! ## Runs of submissions -/

/-- The active step's parse contract accepts the (non-blank) input. -/
def acceptedSubmission (steps : List LeadStep) (s : AgentState) (t : String) : Prop :=
  (jsTrim t) ≠ "" ∧ ∃ step u f, steps[s.stepIndex]? = some step ∧
    step.parse (jsTrim t) s.lead = ParseResult.success u f

/-- The active step's parse contract rejects the (non-blank) input. -/
def rejectedSubmission (steps : List LeadStep) (s : AgentState) (t : String) : Prop :=
  (jsTrim t) ≠ "" ∧ ∃ step m, steps[s.stepIndex]? = some step ∧
    step.parse (jsTrim t) s.lead = ParseResult.failure m

/-- Every submission of the run is accepted at the state it reaches. -/
def acceptedRun (steps : List LeadStep) : AgentState → List String → Prop
  | _, [] => True
  | s, t :: ts => acceptedSubmission steps s t ∧ acceptedRun steps (submit steps t s) ts

/-- Every submission of the run is rejected at the state it reaches. -/
def rejectedRun (steps : List LeadStep) : AgentState → List String → Prop
  | _, [] => True
  | s, t :: ts => rejectedSubmission steps s t ∧ rejectedRun steps (submit steps t s) ts

/-! ## The scoring engine -/

/-- Modelled from the spec: the Insights bundle of §3 — numeric score,
bucketed score label, urgency label, recommended playbook, risks and next
steps. The defining module `src/lib/leadAgent` is not among the visible
sources. -/
structure LeadInsights where
  score : Nat
  scoreLabel : String
  urgencyLabel : String
  recommendedPlaybook : String
  risks : List String
  nextSteps : List String
deriving DecidableEq, Repr

/-- Modelled from the spec: the syntactic email validity test of the
contact-completeness signal (§4.2). -/
def looksLikeEmail (e : String) : Bool :=
  e.contains '@' && e.contains '.'

/-- Modelled from the spec: `evaluateLead` lives in `src/lib/leadAgent`,
which is not among the visible sources. Weighted rubric per §4.2:
a completeness signal over four fields, a budget signal monotone in the
numeric budget, a timeline signal inversely monotone in the week count, a
company-size signal, a contact-completeness bonus; the sum is clamped, the
label bucketed by fixed thresholds, urgency derives from the timeline alone,
risks come from fixed predicates, next steps end in a generic fallback, and
the playbook is picked by the first matching priority rule. -/
def evaluateLead (lead : LeadProfile) : LeadInsights :=
  let completeness :=
    (if lead.industry.isSome then 7 else 0) +
    (if lead.primaryGoal.isSome then 7 else 0) +
    (if lead.painPoints.isSome then 7 else 0) +
    (if lead.techStack.isSome then 7 else 0)
  let budgetSignal :=
    match lead.budgetValue with
    | some v =>
        if 100000 ≤ v then 25 else if 25000 ≤ v then 18 else if 5000 ≤ v then 10 else 5
    | none => 0
  let timelineSignal :=
    match lead.timelineWeeks with
    | some w => if w ≤ 4 then 25 else if w ≤ 12 then 18 else if w ≤ 26 then 10 else 5
    | none => 0
  let sizeSignal :=
    match lead.companySize with
    | some sz => if sz = "enterprise" then 12 else if sz = "mid-market" then 9 else 4
    | none => 0
  let emailValid :=
    match lead.contactEmail with
    | some e => looksLikeEmail e
    | none => false
  let contactSignal := if lead.contactName.isSome && emailValid then 10 else 0
  let score := min (completeness + budgetSignal + timelineSignal + sizeSignal + contactSignal) 100
  let scoreLabel :=
    if 75 ≤ score then "Priority qualification"
    else if 55 ≤ score then "High potential"
    else if 35 ≤ score then "Medium potential"
    else "Low signal"
  let urgencyLabel :=
    match lead.timelineWeeks with
    | some w =>
        if w ≤ 4 then "High urgency — engage this week"
        else if w ≤ 12 then "Moderate urgency"
        else "Low urgency"
    | none => "Timeline unknown"
  let risks :=
    (if lead.budgetValue.isNone then ["No budget signal captured"] else []) ++
    (if lead.timelineWeeks.isNone then ["Timeline not established"] else []) ++
    (if emailValid then [] else ["Contact email missing or invalid"]) ++
    (if lead.painPoints.isNone then ["Pain points not captured"] else [])
  let nextSteps :=
    (match lead.painPoints with
     | some p => ["Prepare a mitigation story for: " ++ p]
     | none => []) ++
    (if emailValid then ["Send a tailored recap to the contact"] else ["Collect a valid work email"]) ++
    ["Schedule a discovery call"]
  let recommendedPlaybook :=
    if lead.companySize = some "enterprise" ∧ 18 ≤ budgetSignal then
      "Enterprise co-selling motion with an executive sponsor"
    else if 18 ≤ budgetSignal then "Fast-track proof of value"
    else if lead.timelineWeeks.isSome then "Timeline-driven nurture with milestone checkpoints"
    else "Generic qualification nurture"
  { score := score, scoreLabel := scoreLabel, urgencyLabel := urgencyLabel,
    recommendedPlaybook := recommendedPlaybook, risks := risks, nextSteps := nextSteps }

/-! ## Transition shape lemmas -/

/-- `steps.getD i default` agrees with a known lookup result. -/
theorem getD_of_lookup {steps : List LeadStep} {i : Nat} {step : LeadStep}
    (h : steps[i]? = some step) : steps.getD i default = step := by
  simp [List.getD_eq_getElem?_getD, h]

/-- Blank (empty or whitespace-only) input is ignored: submit is the
identity. -/
theorem submit_blank (steps : List LeadStep) (raw : String) (s : AgentState)
    (h : (jsTrim raw) = "") : submit steps raw s = s := by
  simp [submit, h]

/-- Submitting while complete appends the user's message and the fixed
acknowledgement, and changes nothing else. -/
theorem submit_complete_shape (steps : List LeadStep) (raw : String) (s : AgentState)
    (ht : (jsTrim raw) ≠ "") (h : s.status = AgentStatus.complete) :
    submit steps raw s = { s with
      messages := s.messages ++
        [userMessage (jsTrim raw),
         agentMessage completeAckText none (some MetaType.info)] } := by
  simp [submit, reducer, ht, h]

/-- Submitting while collecting with the cursor beyond the step list appends
only the user's message. -/
theorem submit_outOfRange_shape (steps : List LeadStep) (raw : String) (s : AgentState)
    (ht : (jsTrim raw) ≠ "") (hcol : s.status = AgentStatus.collecting)
    (hget : steps[s.stepIndex]? = none) :
    submit steps raw s = { s with messages := s.messages ++ [userMessage (jsTrim raw)] } := by
  simp [submit, reducer, ht, hcol, hget]

/-- A rejected submission appends the user's message, the info-tagged retry
message, and the re-issued question of the active step, and leaves cursor,
record and status unchanged. -/
theorem submit_failure_shape (steps : List LeadStep) (raw : String) (s : AgentState)
    (step : LeadStep) (m : String)
    (ht : (jsTrim raw) ≠ "") (hcol : s.status = AgentStatus.collecting)
    (hget : steps[s.stepIndex]? = some step)
    (hparse : step.parse (jsTrim raw) s.lead = ParseResult.failure m) :
    submit steps raw s = { s with
      messages := s.messages ++
        [userMessage (jsTrim raw),
         agentMessage m none (some MetaType.info),
         questionForStep step (some s.stepIndex)] } := by
  simp [submit, reducer, ht, hcol, hget, hparse, getD_of_lookup hget]

/-- An accepted submission at a step that has a successor merges the
updates, advances the cursor by one, and appends the user's message, the
(untagged) follow-up message when the parse returned a non-empty one, and
the next step's question. -/
theorem submit_success_mid_shape (steps : List LeadStep) (raw : String) (s : AgentState)
    (step next : LeadStep) (u : LeadProfile) (f : Option String)
    (ht : (jsTrim raw) ≠ "") (hcol : s.status = AgentStatus.collecting)
    (hget : steps[s.stepIndex]? = some step)
    (hparse : step.parse (jsTrim raw) s.lead = ParseResult.success u f)
    (hnext : steps[s.stepIndex + 1]? = some next) :
    submit steps raw s = { s with
      lead := mergeLead s.lead u,
      stepIndex := s.stepIndex + 1,
      messages := s.messages ++ [userMessage (jsTrim raw)] ++ followUpMessages f ++
        [questionForStep next (some (s.stepIndex + 1))] } := by
  have hlt : s.stepIndex + 1 < steps.length := by
    by_contra hc
    rw [List.getElem?_eq_none (Nat.le_of_not_lt hc)] at hnext
    exact Option.noConfusion hnext
  have hnle : ¬ steps.length ≤ s.stepIndex + 1 := Nat.not_le_of_lt hlt
  simp [submit, reducer, ht, hcol, hget, hparse, hnext, hnle, List.append_assoc]

/-- An accepted submission at the last step merges the updates, advances the
cursor past the end, flips the status to complete, and appends the user's
message, the optional follow-up, and then the closing follow-up, the summary
of the final record, and the closing prompt. -/
theorem submit_success_last_shape (steps : List LeadStep) (raw : String) (s : AgentState)
    (step : LeadStep) (u : LeadProfile) (f : Option String)
    (ht : (jsTrim raw) ≠ "") (hcol : s.status = AgentStatus.collecting)
    (hget : steps[s.stepIndex]? = some step)
    (hparse : step.parse (jsTrim raw) s.lead = ParseResult.success u f)
    (hlast : steps.length ≤ s.stepIndex + 1) :
    submit steps raw s = { s with
      lead := mergeLead s.lead u,
      stepIndex := s.stepIndex + 1,
      status := AgentStatus.complete,
      messages := (s.messages ++ [userMessage (jsTrim raw)] ++ followUpMessages f) ++
        [agentMessage completeFollowUpText none none,
         agentMessage (renderSummary (mergeLead s.lead u)) none (some MetaType.summary),
         agentMessage closingPromptText none none] } := by
  have hnone : steps[s.stepIndex + 1]? = none := List.getElem?_eq_none hlast
  have hfu : ¬ completeFollowUpText = "" := by decide
  simp [submit, reducer, ht, hcol, hget, hparse, hnone, hlast, followUpMessages, hfu,
    List.append_assoc]

/-- Any accepted submission advances the cursor by exactly one, whether or
not a next step exists. -/
theorem submit_accepted_stepIndex (steps : List LeadStep) (t : String) (s : AgentState)
    (hcol : s.status = AgentStatus.collecting) (hacc : acceptedSubmission steps s t) :
    (submit steps t s).stepIndex = s.stepIndex + 1 := by
  obtain ⟨ht, step, u, f, hget, hparse⟩ := hacc
  rcases Nat.lt_or_ge (s.stepIndex + 1) steps.length with hlt | hge
  · rw [submit_success_mid_shape steps t s step (steps[s.stepIndex + 1]) u f ht hcol hget
      hparse (List.getElem?_eq_getElem hlt)]
  · rw [submit_success_last_shape steps t s step u f ht hcol hget hparse hge]

/-- A fully accepted run whose length matches the remaining steps ends
complete, with the cursor one past the last step and the closing follow-up,
the summary of the final record, and the closing prompt as the last three
logged messages. -/
theorem acceptedRun_completes (steps : List LeadStep) :
    ∀ ts s, s.status = AgentStatus.collecting →
    s.stepIndex + ts.length = steps.length →
    acceptedRun steps s ts → ts ≠ [] →
    (runSubmits steps s ts).status = AgentStatus.complete ∧
    (runSubmits steps s ts).stepIndex = steps.length ∧
    ∃ pre, (runSubmits steps s ts).messages =
      pre ++ [agentMessage completeFollowUpText none none,
              agentMessage (renderSummary (runSubmits steps s ts).lead) none
                (some MetaType.summary),
              agentMessage closingPromptText none none] := by
  intro ts
  induction ts with
  | nil => intro s _ _ _ hne; exact absurd rfl hne
  | cons t rest ih =>
    intro s hcol hlen hacc _
    obtain ⟨⟨ht, step, u, f, hget, hparse⟩, hrest⟩ := hacc
    cases rest with
    | nil =>
      have hge : steps.length ≤ s.stepIndex + 1 := by
        simp only [List.length_cons, List.length_nil] at hlen
        omega
      have hshape := submit_success_last_shape steps t s step u f ht hcol hget hparse hge
      have hrun : runSubmits steps s [t] = submit steps t s := rfl
      rw [hrun, hshape]
      refine ⟨rfl, ?_, ⟨s.messages ++ [userMessage (jsTrim t)] ++ followUpMessages f, rfl⟩⟩
      show s.stepIndex + 1 = steps.length
      simp only [List.length_cons, List.length_nil] at hlen
      omega
    | cons t2 rest2 =>
      have hlt : s.stepIndex + 1 < steps.length := by
        simp only [List.length_cons] at hlen
        omega
      have hshape := submit_success_mid_shape steps t s step (steps[s.stepIndex + 1]) u f
        ht hcol hget hparse (List.getElem?_eq_getElem hlt)
      have hrun : runSubmits steps s (t :: t2 :: rest2) =
          runSubmits steps (submit steps t s) (t2 :: rest2) := rfl
      rw [hrun]
      refine ih (submit steps t s) ?_ ?_ hrest (by simp)
      · rw [hshape]
        exact hcol
      · rw [hshape]
        show s.stepIndex + 1 + (t2 :: rest2).length = steps.length
        simp only [List.length_cons] at hlen ⊢
        omega

/-- Along a fully accepted run the engine stays collecting, the cursor
advancing one step per submission, until the final submission. -/
theorem acceptedRun_take_collecting (steps : List LeadStep) :
    ∀ ts s, s.status = AgentStatus.collecting →
    s.stepIndex + ts.length = steps.length →
    acceptedRun steps s ts →
    ∀ k, k < ts.length →
    (runSubmits steps s (ts.take k)).status = AgentStatus.collecting ∧
    (runSubmits steps s (ts.take k)).stepIndex = s.stepIndex + k := by
  intro ts
  induction ts with
  | nil => intro s _ _ _ k hk; exact absurd hk (by simp)
  | cons t rest ih =>
    intro s hcol hlen hacc k hk
    obtain ⟨⟨ht, step, u, f, hget, hparse⟩, hrest⟩ := hacc
    cases k with
    | zero => exact ⟨hcol, by simp [runSubmits]⟩
    | succ k =>
      have hklt : k < rest.length := by
        simp only [List.length_cons] at hk
        omega
      have hlt : s.stepIndex + 1 < steps.length := by
        simp only [List.length_cons] at hlen
        omega
      have hshape := submit_success_mid_shape steps t s step (steps[s.stepIndex + 1]) u f
        ht hcol hget hparse (List.getElem?_eq_getElem hlt)
      have hrun : runSubmits steps s ((t :: rest).take (k + 1)) =
          runSubmits steps (submit steps t s) (rest.take k) := rfl
      rw [hrun]
      have hcol2 : (submit steps t s).status = AgentStatus.collecting := by
        rw [hshape]
        exact hcol
      have hidx : (submit steps t s).stepIndex = s.stepIndex + 1 := by rw [hshape]
      have hlen2 : (submit steps t s).stepIndex + rest.length = steps.length := by
        rw [hidx]
        simp only [List.length_cons] at hlen
        omega
      obtain ⟨h1, h2⟩ := ih (submit steps t s) hcol2 hlen2 hrest k hklt
      exact ⟨h1, by rw [h2, hidx]; omega⟩

/-- A run of rejected submissions leaves record, cursor and status
unchanged (only messages are appended). -/
theorem rejectedRun_preserves (steps : List LeadStep) :
    ∀ ts s, s.status = AgentStatus.collecting → rejectedRun steps s ts →
    (runSubmits steps s ts).lead = s.lead ∧
    (runSubmits steps s ts).stepIndex = s.stepIndex ∧
    (runSubmits steps s ts).status = s.status := by
  intro ts
  induction ts with
  | nil => intro s _ _; exact ⟨rfl, rfl, rfl⟩
  | cons t rest ih =>
    intro s hcol hrej
    obtain ⟨⟨ht, step, m, hget, hparse⟩, hrest⟩ := hrej
    have hshape := submit_failure_shape steps t s step m ht hcol hget hparse
    have hcol2 : (submit steps t s).status = AgentStatus.collecting := by
      rw [hshape]
      exact hcol
    obtain ⟨ha, hb, hc⟩ := ih (submit steps t s) hcol2 hrest
    have hrun : runSubmits steps s (t :: rest) =
        runSubmits steps (submit steps t s) rest := rfl
    refine ⟨?_, ?_, ?_⟩
    · rw [hrun, ha, hshape]
    · rw [hrun, hb, hshape]
    · rw [hrun, hc, hshape]

/-- A truthiness-filtered optional line contributes at most one line. -/
theorem truthyLine_length (o : Option String) : (truthyLine o).length ≤ 1 := by
  cases o with
  | none => simp [truthyLine]
  | some s =>
    by_cases h : s = "" <;> simp [truthyLine, h]

/-- The truthiness filter keeps at most one line per entry. -/
theorem jsFilterTruthy_length (l : List (Option String)) :
    (jsFilterTruthy l).length ≤ l.length := by
  induction l with
  | nil => simp [jsFilterTruthy]
  | cons o rest ih =>
    have h := truthyLine_length o
    simp only [jsFilterTruthy, List.length_append, List.length_cons]
    omega

/-! ## The claims -/

/-- C1: for every step list and every sequence of accepted submissions whose
length is the number of steps, the engine starting from the initial state is
still collecting (with the cursor at the number of prior submissions) after
every proper prefix of the run, and is complete after the final submission,
regardless of the content of the answers; the final log ends with the
closing follow-up message, the summary message generated from the final
record, and the closing prompt. -/
theorem claim1_valid_run_completes (steps : List LeadStep) (ts : List String)
    (hne : steps ≠ []) (hlen : ts.length = steps.length)
    (hacc : acceptedRun steps (initState steps) ts) :
    (runSubmits steps (initState steps) ts).status = AgentStatus.complete ∧
    (∀ k, k < ts.length →
      (runSubmits steps (initState steps) (ts.take k)).status = AgentStatus.collecting ∧
      (runSubmits steps (initState steps) (ts.take k)).stepIndex = k) ∧
    ∃ pre, (runSubmits steps (initState steps) ts).messages =
      pre ++ [agentMessage completeFollowUpText none none,
              agentMessage (renderSummary (runSubmits steps (initState steps) ts).lead) none
                (some MetaType.summary),
              agentMessage closingPromptText none none] := by
  have h0 : (initState steps).status = AgentStatus.collecting := rfl
  have hi : (initState steps).stepIndex = 0 := rfl
  have hlen0 : (initState steps).stepIndex + ts.length = steps.length := by
    rw [hi, Nat.zero_add, hlen]
  have hts : ts ≠ [] := by
    intro h
    apply hne
    subst h
    simp only [List.length_nil] at hlen
    exact List.eq_nil_of_length_eq_zero hlen.symm
  obtain ⟨h1, _, h3⟩ := acceptedRun_completes steps ts (initState steps) h0 hlen0 hacc hts
  refine ⟨h1, ?_, h3⟩
  intro k hk
  obtain ⟨ha, hb⟩ := acceptedRun_take_collecting steps ts (initState steps) h0 hlen0 hacc k hk
  exact ⟨ha, by rw [hb, hi, Nat.zero_add]⟩

/-- Witness for C1 at a concrete three-answer run over the modelled steps. -/
theorem claim1_witness :
    (runSubmits mSteps (initState mSteps)
      ["Acme Robotics", "Grow pipeline", "sam@acme.com"]).status = AgentStatus.complete :=
  (claim1_valid_run_completes mSteps ["Acme Robotics", "Grow pipeline", "sam@acme.com"]
    (by simp [mSteps]) rfl
    ⟨⟨by decide, _, _, _, rfl, rfl⟩,
     ⟨by decide, _, _, _, rfl, rfl⟩,
     ⟨by decide, _, _, _, rfl, rfl⟩, trivial⟩).1

/-- C2: while collecting, a non-blank input rejected by the active step's
parse contract appends exactly three messages — the user's message, the
info-tagged retry message, and the re-issued question of the active step —
leaving record, cursor and status unchanged; consequently any run of
rejected submissions leaves record and cursor unchanged, and an accepted
submission after such a run advances the cursor to exactly one past its
pre-failure position. -/
theorem claim2_failure_retries (steps : List LeadStep) (s : AgentState)
    (hcol : s.status = AgentStatus.collecting) :
    (∀ t step m, (jsTrim t) ≠ "" → steps[s.stepIndex]? = some step →
      step.parse (jsTrim t) s.lead = ParseResult.failure m →
      submit steps t s = { s with
        messages := s.messages ++
          [userMessage (jsTrim t),
           agentMessage m none (some MetaType.info),
           questionForStep step (some s.stepIndex)] }) ∧
    (∀ ts, rejectedRun steps s ts →
      (runSubmits steps s ts).lead = s.lead ∧
      (runSubmits steps s ts).stepIndex = s.stepIndex ∧
      (runSubmits steps s ts).status = s.status) ∧
    (∀ ts t, rejectedRun steps s ts →
      acceptedSubmission steps (runSubmits steps s ts) t →
      (submit steps t (runSubmits steps s ts)).stepIndex = s.stepIndex + 1) := by
  refine ⟨fun t step m ht hget hparse =>
      submit_failure_shape steps t s step m ht hcol hget hparse,
    fun ts hrej => rejectedRun_preserves steps ts s hcol hrej, ?_⟩
  intro ts t hrej hacc
  obtain ⟨_, hb, hc⟩ := rejectedRun_preserves steps ts s hcol hrej
  rw [submit_accepted_stepIndex steps t _ (by rw [hc]; exact hcol) hacc, hb]

/-- Witness for C2: two rejected answers at the modelled email step leave
the cursor where it was. -/
theorem claim2_witness :
    (runSubmits mSteps
      { stepIndex := 2, lead := {}, messages := [], status := AgentStatus.collecting }
      ["first try", "second try"]).stepIndex = 2 :=
  ((claim2_failure_retries mSteps
      { stepIndex := 2, lead := {}, messages := [], status := AgentStatus.collecting }
      rfl).2.1 ["first try", "second try"]
    ⟨⟨by decide, _, _, rfl, rfl⟩, ⟨by decide, _, _, rfl, rfl⟩, trivial⟩).2.1

/-- C3 (amended): blank (empty or whitespace-only) input is ignored
entirely — submit appends no message at all and leaves the state unchanged
(so no step is skipped, but no clarifying retry message is produced
either). -/
theorem claim3_blank_input_ignored (steps : List LeadStep) (raw : String) (s : AgentState)
    (h : (jsTrim raw) = "") : submit steps raw s = s :=
  submit_blank steps raw s h

/-- Witness for C3 (amended) on whitespace input at the fresh state. -/
theorem claim3_witness :
    (jsTrim "   ") = "" ∧ submit mSteps "   " (initState mSteps) = initState mSteps :=
  ⟨by decide, claim3_blank_input_ignored mSteps "   " (initState mSteps) (by decide)⟩

/-- C3 counterexample: on whitespace-only input the state — in particular
the message log, which still holds only the two opening messages — is
unchanged, so no clarifying retry message is produced and the conversation
is not re-prompted, contradicting the claim. -/
theorem claim3_counterexample :
    submit mSteps "   " (initState mSteps) = initState mSteps ∧
    (initState mSteps).messages.length = 2 :=
  ⟨rfl, rfl⟩

/-- C4 (amended): while collecting, an accepted non-blank input appends the
user's message, merges the parse updates into the record, optionally (when
the parse returned a non-empty follow-up text) appends the follow-up as an
agent message carrying no semantic tag — not an info-tagged message —
and advances the cursor by exactly one, logging the next step's question;
a question at index 0 is shown verbatim and a question at a positive index
appends the helper text on a new line when a helper is present. -/
theorem claim4_success_advances (steps : List LeadStep) (s : AgentState) (t : String)
    (step next : LeadStep) (u : LeadProfile) (f : Option String)
    (ht : (jsTrim t) ≠ "") (hcol : s.status = AgentStatus.collecting)
    (hget : steps[s.stepIndex]? = some step)
    (hparse : step.parse (jsTrim t) s.lead = ParseResult.success u f)
    (hnext : steps[s.stepIndex + 1]? = some next) :
    submit steps t s = { s with
      lead := mergeLead s.lead u,
      stepIndex := s.stepIndex + 1,
      messages := s.messages ++ [userMessage (jsTrim t)] ++ followUpMessages f ++
        [questionForStep next (some (s.stepIndex + 1))] } ∧
    (∀ g, g ≠ "" → followUpMessages (some g) =
      [{ sender := Sender.agent, content := g, suggestions := none, meta := none }]) ∧
    followUpMessages none = [] ∧
    (questionForStep next (some (s.stepIndex + 1))).content =
      next.question ++ (match next.helper with | some h => "\n" ++ h | none => "") ∧
    (∀ st : LeadStep, (questionForStep st (some 0)).content = st.question) := by
  refine ⟨submit_success_mid_shape steps t s step next u f ht hcol hget hparse hnext,
    ?_, rfl, rfl, fun st => rfl⟩
  intro g hg
  simp [followUpMessages, hg, agentMessage]

/-- Witness for C4 at the modelled company step. -/
theorem claim4_witness :
    (submit mSteps "Acme Robotics"
      { stepIndex := 0, lead := {}, messages := [], status := AgentStatus.collecting }).stepIndex
        = 1 ∧
    (submit mSteps "Acme Robotics"
      { stepIndex := 0, lead := {}, messages := [],
        status := AgentStatus.collecting }).lead.companyName = some "Acme Robotics" := by
  have h := (claim4_success_advances mSteps
    { stepIndex := 0, lead := {}, messages := [], status := AgentStatus.collecting }
    "Acme Robotics" _ _ _ _ (by decide) rfl rfl rfl rfl).1
  rw [h]
  exact ⟨rfl, rfl⟩

/-- C4 counterexample: the follow-up message returned by a parse is logged
with no semantic tag; it is not an info message, contradicting the claim's
description of it as an info message. -/
theorem claim4_counterexample :
    ((submit mSteps "Grow pipeline"
        { stepIndex := 1, lead := { companyName := some "Acme" }, messages := [],
          status := AgentStatus.collecting }).messages.getD 1 default).content =
      "Great, that helps me tailor the playbook." ∧
    ((submit mSteps "Grow pipeline"
        { stepIndex := 1, lead := { companyName := some "Acme" }, messages := [],
          status := AgentStatus.collecting }).messages.getD 1 default).meta = none ∧
    (none : Option MetaType) ≠ some MetaType.info :=
  ⟨rfl, rfl, by decide⟩

/-- C5: resetting from any state — and likewise the INIT action — yields
exactly the initializer state: cursor 0, empty record, the two-message
opening log (greeting then first question), status collecting. -/
theorem claim5_reset_is_init (steps : List LeadStep) (s : AgentState) :
    reducer steps s AgentAction.reset = initState steps ∧
    reducer steps s AgentAction.init = initState steps ∧
    (initState steps).stepIndex = 0 ∧
    (initState steps).lead = {} ∧
    (initState steps).messages = [initialAgentMessage, questionForStep steps.headI none] ∧
    (initState steps).status = AgentStatus.collecting :=
  ⟨rfl, rfl, rfl, rfl, rfl, rfl⟩

/-- C6 (amended): while complete, an input that is non-blank after trimming
appends exactly the user's message and the fixed info-tagged
acknowledgement, with record, cursor and status untouched; an input that
trims to blank (empty or whitespace-only) is ignored entirely, appending
nothing at all. -/
theorem claim6_complete_acknowledges (steps : List LeadStep) (raw : String) (s : AgentState)
    (h : s.status = AgentStatus.complete) :
    ((jsTrim raw) ≠ "" →
      submit steps raw s = { s with
        messages := s.messages ++
          [userMessage (jsTrim raw),
           agentMessage completeAckText none (some MetaType.info)] } ∧
      (submit steps raw s).lead = s.lead ∧
      (submit steps raw s).stepIndex = s.stepIndex ∧
      (submit steps raw s).status = AgentStatus.complete) ∧
    ((jsTrim raw) = "" → submit steps raw s = s) := by
  constructor
  · intro ht
    have hshape := submit_complete_shape steps raw s ht h
    exact ⟨hshape, by rw [hshape], by rw [hshape], by rw [hshape]; exact h⟩
  · intro ht
    exact submit_blank steps raw s ht

/-- Witness for C6 at a concrete completed state. -/
theorem claim6_witness :
    submit mSteps "extra note"
      { stepIndex := 3, lead := {}, messages := [], status := AgentStatus.complete } =
    { stepIndex := 3, lead := {},
      messages := [userMessage "extra note",
        agentMessage completeAckText none (some MetaType.info)],
      status := AgentStatus.complete } := by
  have h := ((claim6_complete_acknowledges mSteps "extra note"
    { stepIndex := 3, lead := {}, messages := [], status := AgentStatus.complete }
    rfl).1 (by decide)).1
  rw [h]
  rfl

/-- C6 counterexample: a whitespace-only input is non-empty, yet while
complete submit appends neither the user's message nor the acknowledgement
— the blank guard returns before any logging, leaving the state unchanged. -/
theorem claim6_counterexample :
    "   " ≠ "" ∧
    submit mSteps "   "
      { stepIndex := 3, lead := {}, messages := [], status := AgentStatus.complete } =
    { stepIndex := 3, lead := {}, messages := [], status := AgentStatus.complete } :=
  ⟨by decide, rfl⟩

/-- C7 (amended): the summary is one line per truthy gate field in the
fixed order company, goal, pain points, budget (label, else non-zero
numeric value), timeline, contact, each with its fixed label prefix; a
field whose gate is absent, or present but empty (falsy under JS
truthiness), contributes no line, at most six lines in total — but inside
the company line an absent industry is rendered as the placeholder
`unknown vertical`, and inside the contact line an absent email is
rendered as the placeholder `email pending`. -/
theorem claim7_summary_layout (lead : LeadProfile) :
    renderSummary lead = "Quick recap:\n" ++ String.intercalate "\n" (
      truthyLine (match lead.companyName with
        | some c =>
            if c = "" then none
            else some ("• " ++ c ++ " in " ++ lead.industry.getD "unknown vertical")
        | none => none) ++
      truthyLine (match lead.primaryGoal with
        | some g => if g = "" then none else some ("• Goal: " ++ g)
        | none => none) ++
      truthyLine (match lead.painPoints with
        | some p => if p = "" then none else some ("• Challenge: " ++ p)
        | none => none) ++
      truthyLine (match lead.budgetRange with
        | some b =>
            if b = "" then budgetValueLine lead.budgetValue
            else some ("• Budget comfort zone: " ++ b)
        | none => budgetValueLine lead.budgetValue) ++
      truthyLine (match lead.timeline with
        | some t => if t = "" then none else some ("• Timeline: " ++ t)
        | none => none) ++
      truthyLine (match lead.contactName with
        | some n =>
            if n = "" then none
            else some ("• Contact: " ++ n ++ " (" ++ lead.contactEmail.getD "email pending" ++ ")")
        | none => none)) ∧
    (summaryLines lead).length ≤ 6 := by
  constructor
  · simp [renderSummary, summaryLines, summaryEntries, jsFilterTruthy]
  · have h := jsFilterTruthy_length (summaryEntries lead)
    have h6 : (summaryEntries lead).length = 6 := rfl
    rw [h6] at h
    exact h

/-- C7 counterexample: with a company but no industry the summary renders
the placeholder `unknown vertical` for the absent industry; and a populated
industry without a company yields no line at all, so the claim's
"one line per populated field, never a placeholder" fails on both counts. -/
theorem claim7_counterexample :
    renderSummary { companyName := some "Acme" } = "Quick recap:\n• Acme in unknown vertical" ∧
    renderSummary { industry := some "Retail" } = "Quick recap:\n" :=
  ⟨rfl, rfl⟩

/-- C8 (amended): while collecting with the cursor beyond the step list, a
non-blank submit is a guarded no-op rather than an error: it appends only
the user's message and leaves record, cursor and status unchanged; it does
not produce the complete-status acknowledgement. -/
theorem claim8_out_of_range_noop (steps : List LeadStep) (raw : String) (s : AgentState)
    (ht : (jsTrim raw) ≠ "") (hcol : s.status = AgentStatus.collecting)
    (hget : steps[s.stepIndex]? = none) :
    submit steps raw s = { s with messages := s.messages ++ [userMessage (jsTrim raw)] } ∧
    (submit steps raw s).status = AgentStatus.collecting ∧
    (submit steps raw s).stepIndex = s.stepIndex ∧
    (submit steps raw s).lead = s.lead := by
  have h := submit_outOfRange_shape steps raw s ht hcol hget
  exact ⟨h, by rw [h]; exact hcol, by rw [h], by rw [h]⟩

/-- Witness for C8 at a collecting state with the cursor past the modelled
steps. -/
theorem claim8_witness :
    (submit mSteps "hello there"
      { stepIndex := 3, lead := {}, messages := [],
        status := AgentStatus.collecting }).messages = [userMessage "hello there"] := by
  have h := (claim8_out_of_range_noop mSteps "hello there"
    { stepIndex := 3, lead := {}, messages := [], status := AgentStatus.collecting }
    (by decide) rfl rfl).1
  rw [h]
  rfl

/-- C8 counterexample: with the cursor beyond the steps the engine does not
behave as if the conversation were complete — in the complete status the
same submission additionally receives the acknowledgement message, while in
the collecting status it receives no agent response at all. -/
theorem claim8_counterexample :
    (submit mSteps "hello there"
      { stepIndex := 3, lead := {}, messages := [],
        status := AgentStatus.collecting }).messages = [userMessage "hello there"] ∧
    (submit mSteps "hello there"
      { stepIndex := 3, lead := {}, messages := [],
        status := AgentStatus.complete }).messages =
      [userMessage "hello there",
       agentMessage completeAckText none (some MetaType.info)] ∧
    ([userMessage "hello there"] : List Message) ≠
      [userMessage "hello there",
       agentMessage completeAckText none (some MetaType.info)] :=
  ⟨rfl, rfl, by decide⟩

/-- C9: the message log is append-only under submit — in every case (blank
input, complete status, out-of-range cursor, rejected input, accepted
input) the new log extends the old log on the right. -/
theorem claim9_append_only (steps : List LeadStep) (raw : String) (s : AgentState) :
    ∃ tail, (submit steps raw s).messages = s.messages ++ tail := by
  by_cases ht : (jsTrim raw) = ""
  · exact ⟨[], by rw [submit_blank steps raw s ht, List.append_nil]⟩
  · cases hst : s.status with
    | complete =>
      exact ⟨_, by rw [submit_complete_shape steps raw s ht hst]⟩
    | collecting =>
      cases hget : steps[s.stepIndex]? with
      | none => exact ⟨_, by rw [submit_outOfRange_shape steps raw s ht hst hget]⟩
      | some step =>
        cases hparse : step.parse (jsTrim raw) s.lead with
        | failure m =>
          exact ⟨_, by rw [submit_failure_shape steps raw s step m ht hst hget hparse]⟩
        | success u f =>
          rcases Nat.lt_or_ge (s.stepIndex + 1) steps.length with hlt | hge
          · refine ⟨[userMessage (jsTrim raw)] ++ followUpMessages f ++
              [questionForStep (steps[s.stepIndex + 1]) (some (s.stepIndex + 1))], ?_⟩
            rw [submit_success_mid_shape steps raw s step (steps[s.stepIndex + 1]) u f
              ht hst hget hparse (List.getElem?_eq_getElem hlt)]
            simp [List.append_assoc]
          · refine ⟨[userMessage (jsTrim raw)] ++ followUpMessages f ++
              [agentMessage completeFollowUpText none none,
               agentMessage (renderSummary (mergeLead s.lead u)) none (some MetaType.summary),
               agentMessage closingPromptText none none], ?_⟩
            rw [submit_success_last_shape steps raw s step u f ht hst hget hparse hge]
            simp [List.append_assoc]

/-- C10: the scoring engine is a pure function of the record snapshot — two
calls on the same record agree on every component of the Insights. -/
theorem claim10_evaluate_deterministic (r1 r2 : LeadProfile) (h : r1 = r2) :
    evaluateLead r1 = evaluateLead r2 ∧
    (evaluateLead r1).score = (evaluateLead r2).score ∧
    (evaluateLead r1).scoreLabel = (evaluateLead r2).scoreLabel ∧
    (evaluateLead r1).urgencyLabel = (evaluateLead r2).urgencyLabel ∧
    (evaluateLead r1).recommendedPlaybook = (evaluateLead r2).recommendedPlaybook ∧
    (evaluateLead r1).risks = (evaluateLead r2).risks ∧
    (evaluateLead r1).nextSteps = (evaluateLead r2).nextSteps := by
  subst h
  exact ⟨rfl, rfl, rfl, rfl, rfl, rfl, rfl⟩

/-- Witness for C10 at a concrete record. -/
theorem claim10_witness :
    evaluateLead { companyName := some "Acme", budgetValue := some 50000 } =
    evaluateLead { companyName := some "Acme", budgetValue := some 50000 } :=
  (claim10_evaluate_deterministic
    { companyName := some "Acme", budgetValue := some 50000 }
    { companyName := some "Acme", budgetValue := some 50000 } rfl).1
